import Mathlib

/-!
  # E2EE master-key / master-password lifecycle (packages/lib/services/e2ee/utils.ts)

  A shallow embedding of the master-key lifecycle manager. The durable
  state (SyncInfo record plus the credential-store settings) is threaded
  explicitly; the external `EncryptionService` and PPK collaborators are
  passed in as oracle functions (password checks return `Bool`, fallible
  operations return `Except`), matching the interface contract: password
  checks never throw, loading and re-encryption may fail.

  The convention of the settings store is kept: the empty string means
  "not set" for `encryption.masterPassword` and for `activeMasterKeyId`
  (JavaScript truthiness on strings).
-/

namespace E2EE

/-- A master key record as used by the lifecycle code: its identity, its
ciphertext, its creation time and the enabled flag. -/
structure MasterKeyEntity where
  id : String
  content : String
  created_time : Nat
  enabled : Bool
deriving Repr, DecidableEq

/-- A public/private key pair whose private half is password-encrypted. -/
structure PublicPrivateKeyPair where
  encryptedPrivateKey : String
  publicKey : String
deriving Repr, DecidableEq

/-- The synchronized info record: the known master keys, the optional PPK
and the active master key id (empty string when unset). -/
structure SyncInfo where
  masterKeys : List MasterKeyEntity
  ppk : Option PublicPrivateKeyPair
  activeMasterKeyId : String
deriving Repr, DecidableEq

/-- The full durable state the lifecycle manager manipulates: the SyncInfo
record plus the credential-store settings (`encryption.masterPassword`,
`encryption.passwordCache`, `encryption.enabled`). The empty master
password means "not set". -/
structure EState where
  syncInfo : SyncInfo
  masterPassword : String
  passwordCache : List (String × String)
  encryptionEnabled : Bool
deriving Repr, DecidableEq

/-- Lookup in the per-key password cache (a settings object keyed by
master key id): first entry with the given key id, if any. -/
def cacheLookup : List (String × String) → String → Option String
  | [], _ => none
  | e :: rest, id => if e.1 = id then some e.2 else cacheLookup rest id

/-- Modelled from the spec: `masterKeyEnabled` (syncInfoUtils collaborator,
not part of the embedded file) — a key is enabled unless explicitly
disabled by the user, read from its `enabled` flag. -/
def masterKeyEnabled (mk : MasterKeyEntity) : Bool :=
  mk.enabled

/-- Modelled from the spec: `getActiveMasterKey` (syncInfoUtils
collaborator) — resolves `activeMasterKeyId` against the known keys; an
unset id, or one referencing no present key, is treated as absent. -/
def getActiveMasterKey (s : EState) : Option MasterKeyEntity :=
  if s.syncInfo.activeMasterKeyId = "" then none
  else s.syncInfo.masterKeys.find? (fun mk => mk.id == s.syncInfo.activeMasterKeyId)

/-- Modelled from the spec: `MasterKey.latest` (model collaborator) — the
most recently created known key, none when no key exists. -/
def latestMasterKey : List MasterKeyEntity → Option MasterKeyEntity
  | [] => none
  | mk :: rest =>
    match latestMasterKey rest with
    | none => some mk
    | some best => if best.created_time < mk.created_time then some mk else some best

/-- Embeds `getDefaultMasterKey`: the active master key if resolvable,
else the most recently created known key. -/
def getDefaultMasterKey (s : EState) : Option MasterKeyEntity :=
  match getActiveMasterKey s with
  | some mk => some mk
  | none => latestMasterKey s.syncInfo.masterKeys

/-- Embeds `findMasterKeyPassword`: prefer the global master password when
it is set and the `EncryptionService.checkMasterKeyPassword` oracle `mc`
verifies it against this specific key; otherwise fall back to the per-key
cached password, unverified (`none` when the cache has no entry). -/
def findMasterKeyPassword (mc : MasterKeyEntity → String → Bool)
    (s : EState) (mk : MasterKeyEntity) : Option String :=
  if s.masterPassword ≠ "" ∧ mc mk s.masterPassword = true then some s.masterPassword
  else cacheLookup s.passwordCache mk.id

/-- Embeds the loop of `loadMasterKeysFromSettings`: walk the known keys,
skip keys already loaded in the service (`loaded` is the service's set of
loaded key ids), skip keys with no (or empty) candidate password, and
otherwise attempt the `EncryptionService.loadMasterKey` oracle `lo`
(arguments: key, password, whether it is the active key); a load failure
is caught and the loop continues. Returns the final loaded ids and the
trace of attempted key ids. -/
def loadKeysLoop (mc : MasterKeyEntity → String → Bool)
    (lo : MasterKeyEntity → String → Bool → Except String Unit)
    (s : EState) :
    List MasterKeyEntity → List String → List String →
    Except String (List String × List String)
  | [], loaded, att => .ok (loaded, att)
  | mk :: rest, loaded, att =>
    if mk.id ∈ loaded then loadKeysLoop mc lo s rest loaded att
    else
      match findMasterKeyPassword mc s mk with
      | none => loadKeysLoop mc lo s rest loaded att
      | some pw =>
        if pw = "" then loadKeysLoop mc lo s rest loaded att
        else
          match lo mk pw (s.syncInfo.activeMasterKeyId == mk.id) with
          | .ok _ => loadKeysLoop mc lo s rest (loaded ++ [mk.id]) (att ++ [mk.id])
          | .error _ => loadKeysLoop mc lo s rest loaded (att ++ [mk.id])

/-- Embeds `loadMasterKeysFromSettings`: best-effort load of every known
master key into the service, starting from the service's current loaded
set `loadedInit`. -/
def loadMasterKeysFromSettings (mc : MasterKeyEntity → String → Bool)
    (lo : MasterKeyEntity → String → Bool → Except String Unit)
    (s : EState) (loadedInit : List String) :
    Except String (List String × List String) :=
  loadKeysLoop mc lo s s.syncInfo.masterKeys loadedInit []

/-- Specification-side description of which keys the load loop attempts:
every known key that is not already loaded and has a non-empty candidate
password, in order — independent of load successes or failures. -/
def attemptedKeysSpec (mc : MasterKeyEntity → String → Bool)
    (s : EState) (loadedInit : List String) : List MasterKeyEntity → List String
  | [] => []
  | mk :: rest =>
    if mk.id ∈ loadedInit then attemptedKeysSpec mc s loadedInit rest
    else
      match findMasterKeyPassword mc s mk with
      | none => attemptedKeysSpec mc s loadedInit rest
      | some pw =>
        if pw = "" then attemptedKeysSpec mc s loadedInit rest
        else mk.id :: attemptedKeysSpec mc s loadedInit rest

/-- Embeds the filtering loop of `showMissingMasterKeyMessage`, faithfully:
iterate indices from the top of the flagged list downward; a flagged id
matching no known key is left in place (`continue`), and a flagged id whose
key is known but disabled triggers `pop()` — removal of the current last
element of the list. -/
def smkLoop (masterKeys : List MasterKeyEntity) :
    Nat → List String → List String
  | 0, l => l
  | i + 1, l =>
    let kept :=
      match l[i]? with
      | none => l
      | some id =>
        match masterKeys.find? (fun mk => mk.id == id) with
        | none => l
        | some mk => if masterKeyEnabled mk then l else l.dropLast
    smkLoop masterKeys i kept

/-- Embeds `showMissingMasterKeyMessage`: false when no master key is
known; otherwise run the filtering loop over a copy of the flagged ids and
warn when the remaining list is non-empty. -/
def showMissingMasterKeyMessage (syncInfo : SyncInfo)
    (notLoadedMasterKeys : List String) : Bool :=
  if syncInfo.masterKeys.length = 0 then false
  else
    decide ((smkLoop syncInfo.masterKeys notLoadedMasterKeys.length
      notLoadedMasterKeys).length ≠ 0)

/-- Embeds `migrateMasterPassword`: no-op when the master password is
already set, when a PPK exists, when no active master key resolves, or
when the active key has no (or an empty) cached password; otherwise
promote the cached password to the master password and purge every cache
entry whose value equals it. -/
def migrateMasterPassword (s : EState) : EState :=
  if s.masterPassword ≠ "" then s
  else if s.syncInfo.ppk.isSome then s
  else
    match getActiveMasterKey s with
    | none => s
    | some mk =>
      match cacheLookup s.passwordCache mk.id with
      | none => s
      | some pw =>
        if pw = "" then s
        else
          { s with
            masterPassword := pw,
            passwordCache := s.passwordCache.filter (fun e => decide (e.2 ≠ pw)) }

/-- The error discriminants surfaced by the lifecycle manager. -/
inductive JErr where
  | noKeyToDecrypt
  | undefinedMasterPassword
deriving Repr, DecidableEq

/-- Embeds `getMasterPassword`: the stored master password, raising
`undefinedMasterPassword` when it is unset and `throwIfNotSet` holds. -/
def getMasterPassword (s : EState) (throwIfNotSet : Bool) : Except JErr String :=
  if s.masterPassword = "" ∧ throwIfNotSet = true then .error .undefinedMasterPassword
  else .ok s.masterPassword

/-- Embeds `masterPasswordIsValid` with the `ppkPasswordIsValid` oracle
`pc` and the `checkMasterKeyPassword` oracle `mc`: validate against the
PPK when one exists, else against the default master key, and raise
`noKeyToDecrypt` when neither exists. -/
def masterPasswordIsValid (pc : PublicPrivateKeyPair → String → Bool)
    (mc : MasterKeyEntity → String → Bool)
    (s : EState) (masterPassword : String) : Except JErr Bool :=
  match s.syncInfo.ppk with
  | some ppk => .ok (pc ppk masterPassword)
  | none =>
    match getDefaultMasterKey s with
    | some mk => .ok (mc mk masterPassword)
    | none => .error .noKeyToDecrypt

/-- The master-password status enumeration. -/
inductive MasterPasswordStatus where
  | Unknown
  | Loaded
  | NotSet
  | Invalid
  | Valid
deriving Repr, DecidableEq

/-- Embeds `getMasterPasswordStatus`: `NotSet` when no password is stored;
otherwise run the validity check, mapping true to `Valid`, false to
`Invalid`, and a caught `noKeyToDecrypt` to `Loaded`; any other error is
rethrown. -/
def getMasterPasswordStatus (pc : PublicPrivateKeyPair → String → Bool)
    (mc : MasterKeyEntity → String → Bool)
    (s : EState) : Except JErr MasterPasswordStatus :=
  match getMasterPassword s false with
  | .error e => .error e
  | .ok password =>
    if password = "" then .ok .NotSet
    else
      match masterPasswordIsValid pc mc s password with
      | .ok true => .ok .Valid
      | .ok false => .ok .Invalid
      | .error .noKeyToDecrypt => .ok .Loaded
      | .error e => .error e

/-- The errors of the password-change transaction: a missing current
password, or a re-encryption failure of a specific key or of the PPK,
wrapping the underlying cause. -/
inductive UpdateError where
  | missingCurrentPassword
  | reencryptionFailed (keyId : String) (cause : String)
  | ppkReencryptionFailed (cause : String)
deriving Repr, DecidableEq

/-- Embeds the staging loop of `updateMasterPassword`: re-encrypt every
master key in order via the `EncryptionService.reencryptMasterKey` oracle
`re`, collecting results; the first failure aborts with
`reencryptionFailed` naming the key. -/
def reencryptKeys (re : MasterKeyEntity → String → String → Except String MasterKeyEntity) :
    List MasterKeyEntity → String → String → Except UpdateError (List MasterKeyEntity)
  | [], _, _ => .ok []
  | mk :: rest, c, n =>
    match re mk c n with
    | .error cause => .error (.reencryptionFailed mk.id cause)
    | .ok mk2 =>
      match reencryptKeys re rest c n with
      | .error err => .error err
      | .ok rest2 => .ok (mk2 :: rest2)

/-- Embeds `MasterKey.save` on the registry as used by the transaction:
replace the stored record with the same id (re-encryption preserves key
identity). -/
def saveMasterKey (s : EState) (mk : MasterKeyEntity) : EState :=
  { s with
    syncInfo := { s.syncInfo with
      masterKeys := s.syncInfo.masterKeys.map (fun k => if k.id = mk.id then mk else k) } }

/-- Embeds `updateMasterPassword`: when a PPK or any master key exists, a
non-empty current password is required; every master key and then the PPK
(when present) are re-encrypted in memory via the oracles `re` and `rp`,
any failure aborting before any persistence; only after all succeed are
the keys saved, the SyncInfo updated with the new PPK, and the master
password set to the new password (the new password is always written on
success, the post-commit sync hook is fire-and-forget and not modelled).
Returns the outcome together with the state as persisted so far. -/
def updateMasterPassword
    (re : MasterKeyEntity → String → String → Except String MasterKeyEntity)
    (rp : PublicPrivateKeyPair → String → String → Except String PublicPrivateKeyPair)
    (s : EState) (currentPassword newPassword : String) :
    Except UpdateError Unit × EState :=
  if s.syncInfo.ppk ≠ none ∨ s.syncInfo.masterKeys ≠ [] then
    if currentPassword = "" then (.error .missingCurrentPassword, s)
    else
      match reencryptKeys re s.syncInfo.masterKeys currentPassword newPassword with
      | .error err => (.error err, s)
      | .ok newKeys =>
        match s.syncInfo.ppk with
        | some ppk =>
          match rp ppk currentPassword newPassword with
          | .error cause => (.error (.ppkReencryptionFailed cause), s)
          | .ok newPpk =>
            let s1 := newKeys.foldl saveMasterKey s
            let s2 := { s1 with syncInfo := { s1.syncInfo with ppk := some newPpk } }
            (.ok (), { s2 with masterPassword := newPassword })
        | none =>
          let s1 := newKeys.foldl saveMasterKey s
          (.ok (), { s1 with masterPassword := newPassword })
  else (.ok (), { s with masterPassword := newPassword })

/-- Modelled from the spec: `setEncryptionEnabled` (syncInfoUtils
collaborator) — set the enabled flag and, when a non-empty active key id
is supplied, record it; a null id leaves the recorded active key id
untouched. -/
def setEncryptionEnabled (s : EState) (v : Bool) (activeMasterKeyId : String) : EState :=
  { s with
    encryptionEnabled := v,
    syncInfo := { s.syncInfo with
      activeMasterKeyId :=
        if activeMasterKeyId = "" then s.syncInfo.activeMasterKeyId
        else activeMasterKeyId } }

/-- Embeds `setupAndEnableEncryption` on the durable state: enable
encryption (recording the supplied key as active, when given) and store
the supplied master password only when it is non-empty (null and the
empty string are both falsy). The item-store side effect and the final
key-loading pass touch no credential-store or registry state. -/
def setupAndEnableEncryption (s : EState) (masterKey : Option MasterKeyEntity)
    (masterPassword : String) : EState :=
  let s1 := setEncryptionEnabled s true
    (match masterKey with | some mk => mk.id | none => "")
  if masterPassword ≠ "" then { s1 with masterPassword := masterPassword } else s1

/-! ## Helper lemmas -/

theorem migrate_of_set (t : EState) (h : t.masterPassword ≠ "") :
    migrateMasterPassword t = t := by
  unfold migrateMasterPassword
  rw [if_pos h]

theorem migrate_cases (s : EState) :
    migrateMasterPassword s = s ∨ (migrateMasterPassword s).masterPassword ≠ "" := by
  unfold migrateMasterPassword
  split
  · exact Or.inl rfl
  · split
    · exact Or.inl rfl
    · split
      · exact Or.inl rfl
      · split
        · exact Or.inl rfl
        · split
          · exact Or.inl rfl
          · next h => exact Or.inr h

theorem latestMasterKey_eq_none (l : List MasterKeyEntity) :
    latestMasterKey l = none ↔ l = [] := by
  cases l with
  | nil => simp [latestMasterKey]
  | cons mk rest =>
    simp only [latestMasterKey]
    cases latestMasterKey rest with
    | none => simp
    | some best =>
      by_cases h : best.created_time < mk.created_time <;> simp [h]

theorem latestMasterKey_spec (l : List MasterKeyEntity) (h : l ≠ []) :
    ∃ mk, latestMasterKey l = some mk ∧ mk ∈ l ∧
      ∀ k ∈ l, k.created_time ≤ mk.created_time := by
  induction l with
  | nil => exact absurd rfl h
  | cons mk rest ih =>
    cases hr : latestMasterKey rest with
    | none =>
      have hre : rest = [] := (latestMasterKey_eq_none rest).mp hr
      subst hre
      refine ⟨mk, by simp [latestMasterKey], by simp, ?_⟩
      intro k hk
      rw [List.mem_singleton] at hk
      subst hk
      exact le_refl _
    | some best =>
      have hrest : rest ≠ [] := by
        intro he
        rw [he] at hr
        simp [latestMasterKey] at hr
      obtain ⟨mk2, h1, h2, h3⟩ := ih hrest
      rw [hr] at h1
      have hbe : best = mk2 := Option.some.inj h1
      rw [← hbe] at h2 h3
      by_cases hlt : best.created_time < mk.created_time
      · refine ⟨mk, by simp [latestMasterKey, hr, hlt], List.mem_cons_self mk rest, ?_⟩
        intro k hk
        rcases List.mem_cons.mp hk with rfl | hk
        · exact le_refl _
        · exact le_trans (h3 k hk) (le_of_lt hlt)
      · refine ⟨best, by simp [latestMasterKey, hr, hlt], List.mem_cons_of_mem mk h2, ?_⟩
        intro k hk
        rcases List.mem_cons.mp hk with rfl | hk
        · exact not_lt.mp hlt
        · exact h3 k hk

theorem reencryptKeys_error_of_mem
    (re : MasterKeyEntity → String → String → Except String MasterKeyEntity)
    (c n : String) :
    ∀ keys : List MasterKeyEntity,
      (∃ mk ∈ keys, ∃ ce, re mk c n = Except.error ce) →
      ∃ err, reencryptKeys re keys c n = Except.error err := by
  intro keys
  induction keys with
  | nil =>
    rintro ⟨mk, hm, -⟩
    exact absurd hm (List.not_mem_nil mk)
  | cons mk0 rest ih =>
    rintro ⟨mk, hm, ce, he⟩
    unfold reencryptKeys
    cases hr : re mk0 c n with
    | error cause => exact ⟨UpdateError.reencryptionFailed mk0.id cause, rfl⟩
    | ok mk2 =>
      have hmr : mk ∈ rest := by
        rcases List.mem_cons.mp hm with rfl | hmem
        · rw [hr] at he
          exact absurd he (by simp)
        · exact hmem
      obtain ⟨err, herr⟩ := ih ⟨mk, hmr, ce, he⟩
      rw [herr]
      exact ⟨err, rfl⟩

theorem loadKeysLoop_isOk (mc : MasterKeyEntity → String → Bool)
    (lo : MasterKeyEntity → String → Bool → Except String Unit) (s : EState) :
    ∀ (keys : List MasterKeyEntity) (loaded att : List String),
      ∃ r, loadKeysLoop mc lo s keys loaded att = Except.ok r := by
  intro keys
  induction keys with
  | nil => exact fun loaded att => ⟨(loaded, att), rfl⟩
  | cons mk rest ih =>
    intro loaded att
    unfold loadKeysLoop
    by_cases h1 : mk.id ∈ loaded
    · rw [if_pos h1]
      exact ih _ _
    · rw [if_neg h1]
      cases hf : findMasterKeyPassword mc s mk with
      | none => exact ih _ _
      | some pw =>
        dsimp only
        by_cases h2 : pw = ""
        · rw [if_pos h2]
          exact ih _ _
        · rw [if_neg h2]
          cases hl : lo mk pw (s.syncInfo.activeMasterKeyId == mk.id) with
          | ok u => exact ih _ _
          | error e => exact ih _ _

theorem loadKeysLoop_attempts (mc : MasterKeyEntity → String → Bool)
    (lo : MasterKeyEntity → String → Bool → Except String Unit)
    (s : EState) (li : List String) :
    ∀ (keys : List MasterKeyEntity) (loaded att : List String),
      (keys.map (fun k => k.id)).Nodup →
      (∀ k ∈ keys, (k.id ∈ loaded ↔ k.id ∈ li)) →
      ∃ fl, loadKeysLoop mc lo s keys loaded att =
        Except.ok (fl, att ++ attemptedKeysSpec mc s li keys) := by
  intro keys
  induction keys with
  | nil =>
    intro loaded att _ _
    exact ⟨loaded, by simp [loadKeysLoop, attemptedKeysSpec]⟩
  | cons mk rest ih =>
    intro loaded att hnd hmem
    have hnd1 : (mk.id :: rest.map (fun k => k.id)).Nodup := by simpa using hnd
    have hnd2 := List.nodup_cons.mp hnd1
    have hmk : mk.id ∈ loaded ↔ mk.id ∈ li := hmem mk (List.mem_cons_self mk rest)
    unfold loadKeysLoop attemptedKeysSpec
    by_cases h1 : mk.id ∈ li
    · rw [if_pos (hmk.mpr h1), if_pos h1]
      exact ih loaded att hnd2.2 (fun k hk => hmem k (List.mem_cons_of_mem mk hk))
    · rw [if_neg (fun hc => h1 (hmk.mp hc)), if_neg h1]
      cases hf : findMasterKeyPassword mc s mk with
      | none => exact ih loaded att hnd2.2 (fun k hk => hmem k (List.mem_cons_of_mem mk hk))
      | some pw =>
        dsimp only
        by_cases h2 : pw = ""
        · rw [if_pos h2, if_pos h2]
          exact ih loaded att hnd2.2 (fun k hk => hmem k (List.mem_cons_of_mem mk hk))
        · rw [if_neg h2, if_neg h2]
          cases hl : lo mk pw (s.syncInfo.activeMasterKeyId == mk.id) with
          | error e =>
            obtain ⟨fl, hfl⟩ := ih loaded (att ++ [mk.id]) hnd2.2
              (fun k hk => hmem k (List.mem_cons_of_mem mk hk))
            exact ⟨fl, by simpa [List.append_assoc] using hfl⟩
          | ok u =>
            have hm2 : ∀ k ∈ rest, (k.id ∈ loaded ++ [mk.id] ↔ k.id ∈ li) := by
              intro k hk
              have hne : k.id ≠ mk.id := by
                intro he
                refine hnd2.1 ?_
                rw [← he]
                exact List.mem_map_of_mem (fun k => k.id) hk
              rw [List.mem_append, List.mem_singleton]
              constructor
              · rintro (hin | hin)
                · exact (hmem k (List.mem_cons_of_mem mk hk)).mp hin
                · exact absurd hin hne
              · intro hin
                exact Or.inl ((hmem k (List.mem_cons_of_mem mk hk)).mpr hin)
            obtain ⟨fl, hfl⟩ := ih (loaded ++ [mk.id]) (att ++ [mk.id]) hnd2.2 hm2
            exact ⟨fl, by simpa [List.append_assoc] using hfl⟩

/-! ## Concrete fixtures for witnesses and counterexamples -/

/-- An enabled master key with id `a`, created first. -/
def mkEnabledA : MasterKeyEntity :=
  { id := "a", content := "ca", created_time := 1, enabled := true }

/-- An enabled master key with id `b`, created later. -/
def mkEnabledB : MasterKeyEntity :=
  { id := "b", content := "cb", created_time := 2, enabled := true }

/-- A sync info with one enabled key and nothing else. -/
def syncInfoOneEnabledKey : SyncInfo :=
  { masterKeys := [mkEnabledA], ppk := none, activeMasterKeyId := "" }

/-- A state with a stored master password but no key material at all. -/
def stateNoKeys : EState :=
  { syncInfo := { masterKeys := [], ppk := none, activeMasterKeyId := "" },
    masterPassword := "pw", passwordCache := [], encryptionEnabled := false }

/-- A state with one master key and a stored master password. -/
def stateOneKey : EState :=
  { syncInfo := syncInfoOneEnabledKey,
    masterPassword := "pw", passwordCache := [], encryptionEnabled := true }

/-- A state with two master keys, no PPK and no active key. -/
def stateTwoKeys : EState :=
  { syncInfo := { masterKeys := [mkEnabledA, mkEnabledB], ppk := none, activeMasterKeyId := "" },
    masterPassword := "", passwordCache := [], encryptionEnabled := true }

/-- A state with no key material and no master password. -/
def stateEmpty : EState :=
  { syncInfo := { masterKeys := [], ppk := none, activeMasterKeyId := "" },
    masterPassword := "", passwordCache := [], encryptionEnabled := false }

/-- A state whose master password is set while the per-key cache holds a
different password for key `a`. -/
def stateCachedOther : EState :=
  { syncInfo := syncInfoOneEnabledKey,
    masterPassword := "mp", passwordCache := [("a", "other")], encryptionEnabled := true }

/-- A state for the load-loop witness: two keys, `a` active, master
password set, and a cached per-key password for `b`. -/
def stateLoadW : EState :=
  { syncInfo := { masterKeys := [mkEnabledA, mkEnabledB], ppk := none, activeMasterKeyId := "a" },
    masterPassword := "mp", passwordCache := [("b", "pb")], encryptionEnabled := true }

/-- A re-encryption oracle that always fails. -/
def reFail : MasterKeyEntity → String → String → Except String MasterKeyEntity :=
  fun _ _ _ => Except.error "reencrypt failed"

/-- A PPK re-encryption oracle that always fails. -/
def rpFail : PublicPrivateKeyPair → String → String → Except String PublicPrivateKeyPair :=
  fun _ _ _ => Except.error "reencrypt failed"

/-- A password-check oracle accepting exactly the password `mp`. -/
def mcMaster : MasterKeyEntity → String → Bool :=
  fun _ pw => pw == "mp"

/-- A password-check oracle rejecting everything. -/
def mcNever : MasterKeyEntity → String → Bool :=
  fun _ _ => false

/-- A PPK password-check oracle rejecting everything. -/
def pcNever : PublicPrivateKeyPair → String → Bool :=
  fun _ _ => false

/-- A check oracle under which the master password verifies only against
key `a`. -/
def mcLoadW : MasterKeyEntity → String → Bool :=
  fun mk pw => pw == "mp" && mk.id == "a"

/-- A load oracle that fails on key `a` and succeeds elsewhere. -/
def loFailA : MasterKeyEntity → String → Bool → Except String Unit :=
  fun mk _ _ => if mk.id == "a" then Except.error "bad password" else Except.ok ()

/-! ## The claims -/

/-- C1: the password-change transaction is atomic. For every call to
`updateMasterPassword` in which re-encryption of some master key or of the
PPK fails, the call returns an error and nothing is persisted: the final
state — every master key's stored ciphertext, the SyncInfo record with its
PPK, and the stored master password — equals the pre-call state, so
re-encryptions that succeeded earlier in the call are discarded. -/
theorem updateMasterPassword_atomic_on_failure
    (re : MasterKeyEntity → String → String → Except String MasterKeyEntity)
    (rp : PublicPrivateKeyPair → String → String → Except String PublicPrivateKeyPair)
    (s : EState) (c n : String)
    (h : (∃ mk ∈ s.syncInfo.masterKeys, ∃ ce, re mk c n = Except.error ce) ∨
         (∃ p ce, s.syncInfo.ppk = some p ∧ rp p c n = Except.error ce)) :
    (∃ err, (updateMasterPassword re rp s c n).1 = Except.error err) ∧
    (updateMasterPassword re rp s c n).2 = s := by
  have hcond : s.syncInfo.ppk ≠ none ∨ s.syncInfo.masterKeys ≠ [] := by
    rcases h with ⟨mk, hm, -⟩ | ⟨p, ce, hp, -⟩
    · right
      intro he
      rw [he] at hm
      exact List.not_mem_nil mk hm
    · left
      rw [hp]
      simp
  unfold updateMasterPassword
  rw [if_pos hcond]
  by_cases hc : c = ""
  · rw [if_pos hc]
    exact ⟨⟨UpdateError.missingCurrentPassword, rfl⟩, rfl⟩
  · rw [if_neg hc]
    cases hk : reencryptKeys re s.syncInfo.masterKeys c n with
    | error err => exact ⟨⟨err, rfl⟩, rfl⟩
    | ok newKeys =>
      rcases h with hmk | ⟨p, ce, hp, hrp⟩
      · obtain ⟨err, herr⟩ := reencryptKeys_error_of_mem re c n s.syncInfo.masterKeys hmk
        rw [herr] at hk
        exact absurd hk (by simp)
      · rw [hp]
        dsimp only
        rw [hrp]
        exact ⟨⟨UpdateError.ppkReencryptionFailed ce, rfl⟩, rfl⟩

/-- C1 witness: with one master key and an always-failing re-encryption
oracle, the call errors and the state is untouched. -/
theorem updateMasterPassword_atomic_on_failure_witness :
    (∃ err, (updateMasterPassword reFail rpFail stateOneKey "pw" "npw").1 = Except.error err) ∧
    (updateMasterPassword reFail rpFail stateOneKey "pw" "npw").2 = stateOneKey :=
  updateMasterPassword_atomic_on_failure reFail rpFail stateOneKey "pw" "npw"
    (Or.inl ⟨mkEnabledA, by decide, "reencrypt failed", rfl⟩)

/-- C2 counterexample: the claim fails on `updateMasterPassword`. Starting
from a state whose master password is `pw` and which holds no key
material, calling it with an empty new password succeeds and overwrites
the stored master password with the empty string — the empty supplied
password is neither rejected nor ignored. -/
theorem updateMasterPassword_stores_empty_counterexample :
    (updateMasterPassword reFail rpFail stateNoKeys "x" "").1 = Except.ok () ∧
    stateNoKeys.masterPassword = "pw" ∧
    (updateMasterPassword reFail rpFail stateNoKeys "x" "").2.masterPassword = "" := by
  refine ⟨rfl, rfl, rfl⟩

/-- C2 amended: `setupAndEnableEncryption` ignores an empty supplied
password (stored master password unchanged) and `migrateMasterPassword`
never promotes an empty password (it either leaves the state unchanged or
ends with a non-empty master password); `updateMasterPassword`, however,
writes the new password unconditionally on success — on every run it
either sets the stored master password to the new password, empty or not,
or (on error) leaves the state unchanged. -/
theorem emptyPassword_handling_amended :
    (∀ (s : EState) (mk : Option MasterKeyEntity),
      (setupAndEnableEncryption s mk "").masterPassword = s.masterPassword) ∧
    (∀ s : EState,
      migrateMasterPassword s = s ∨ (migrateMasterPassword s).masterPassword ≠ "") ∧
    (∀ (re : MasterKeyEntity → String → String → Except String MasterKeyEntity)
       (rp : PublicPrivateKeyPair → String → String → Except String PublicPrivateKeyPair)
       (s : EState) (c n : String),
      (updateMasterPassword re rp s c n).2.masterPassword = n ∨
      (updateMasterPassword re rp s c n).2 = s) := by
  refine ⟨?_, migrate_cases, ?_⟩
  · intro s mk
    simp [setupAndEnableEncryption, setEncryptionEnabled]
  · intro re rp s c n
    unfold updateMasterPassword
    split
    · split
      · exact Or.inr rfl
      · cases hk : reencryptKeys re s.syncInfo.masterKeys c n with
        | error err => exact Or.inr rfl
        | ok newKeys =>
          cases hp : s.syncInfo.ppk with
          | none => exact Or.inl rfl
          | some p =>
            dsimp only
            cases hr : rp p c n with
            | error ce => exact Or.inr rfl
            | ok np => exact Or.inl rfl
    · exact Or.inl rfl

/-- C3 (code-bug evidence): with one enabled master key known and a single
flagged id that matches no known key, `showMissingMasterKeyMessage`
returns true — although the flagged id corresponds to no known key, which
both the claim and the function's own comment say must be ignored (so the
expected result is false). -/
theorem showMissingMasterKeyMessage_warns_on_unknown_id :
    showMissingMasterKeyMessage syncInfoOneEnabledKey ["zz"] = true ∧
    syncInfoOneEnabledKey.masterKeys.all (fun mk => mk.id != "zz") = true := by
  refine ⟨by decide, by decide⟩

/-- C4: `findMasterKeyPassword` returns the global master password whenever
it is set and the check oracle verifies it against this specific key —
regardless of what the per-key cache holds — and in every other case
returns the per-key cache lookup for the key's id, unverified. -/
theorem findMasterKeyPassword_precedence
    (mc : MasterKeyEntity → String → Bool) (s : EState) (mk : MasterKeyEntity) :
    (s.masterPassword ≠ "" → mc mk s.masterPassword = true →
      findMasterKeyPassword mc s mk = some s.masterPassword) ∧
    (s.masterPassword = "" ∨ mc mk s.masterPassword = false →
      findMasterKeyPassword mc s mk = cacheLookup s.passwordCache mk.id) := by
  constructor
  · intro h1 h2
    unfold findMasterKeyPassword
    rw [if_pos ⟨h1, h2⟩]
  · intro h
    have hc : ¬(s.masterPassword ≠ "" ∧ mc mk s.masterPassword = true) := by
      rintro ⟨hne, heq⟩
      rcases h with h | h
      · exact hne h
      · rw [h] at heq
        exact Bool.false_ne_true heq
    unfold findMasterKeyPassword
    rw [if_neg hc]

/-- C4 witness: with the master password set and verifying, the cached
different per-key password is bypassed; with a never-verifying oracle the
cache entry is returned instead. -/
theorem findMasterKeyPassword_precedence_witness :
    findMasterKeyPassword mcMaster stateCachedOther mkEnabledA = some "mp" ∧
    findMasterKeyPassword mcNever stateCachedOther mkEnabledA = some "other" := by
  constructor
  · exact (findMasterKeyPassword_precedence mcMaster stateCachedOther mkEnabledA).1
      (by decide) (by decide)
  · have h := (findMasterKeyPassword_precedence mcNever stateCachedOther mkEnabledA).2
      (Or.inr rfl)
    rw [h]
    decide

/-- C5: `getMasterPasswordStatus` returns `NotSet` exactly when no master
password is stored; with a password stored it returns `Loaded` exactly
when the validity check raises `noKeyToDecrypt`, `Valid` exactly when the
check returns true, `Invalid` exactly when it returns false; and it never
returns `Unknown`. -/
theorem getMasterPasswordStatus_mapping
    (pc : PublicPrivateKeyPair → String → Bool)
    (mc : MasterKeyEntity → String → Bool) (s : EState) :
    (getMasterPasswordStatus pc mc s = Except.ok MasterPasswordStatus.NotSet ↔
      s.masterPassword = "") ∧
    (getMasterPasswordStatus pc mc s = Except.ok MasterPasswordStatus.Loaded ↔
      s.masterPassword ≠ "" ∧
      masterPasswordIsValid pc mc s s.masterPassword = Except.error JErr.noKeyToDecrypt) ∧
    (getMasterPasswordStatus pc mc s = Except.ok MasterPasswordStatus.Valid ↔
      s.masterPassword ≠ "" ∧
      masterPasswordIsValid pc mc s s.masterPassword = Except.ok true) ∧
    (getMasterPasswordStatus pc mc s = Except.ok MasterPasswordStatus.Invalid ↔
      s.masterPassword ≠ "" ∧
      masterPasswordIsValid pc mc s s.masterPassword = Except.ok false) ∧
    getMasterPasswordStatus pc mc s ≠ Except.ok MasterPasswordStatus.Unknown := by
  have hg : getMasterPassword s false = Except.ok s.masterPassword := by
    unfold getMasterPassword
    rw [if_neg (by simp)]
  unfold getMasterPasswordStatus
  rw [hg]
  dsimp only
  by_cases h : s.masterPassword = ""
  · rw [if_pos h]
    simp [h]
  · rw [if_neg h]
    cases hv : masterPasswordIsValid pc mc s s.masterPassword with
    | ok b =>
      cases b
      · simp [h, hv]
      · simp [h, hv]
    | error e =>
      cases e
      · simp [h, hv]
      · simp [h, hv]

/-- C6: `masterPasswordIsValid` raises `noKeyToDecrypt` exactly when
neither a PPK nor any master key exists; with a PPK present the result is
the PPK password check; with no PPK but some master key present the result
is the key check against the default key, which is the resolvable active
key when set and otherwise a known key of maximal creation time. -/
theorem masterPasswordIsValid_cases
    (pc : PublicPrivateKeyPair → String → Bool)
    (mc : MasterKeyEntity → String → Bool) (s : EState) (pw : String) :
    (masterPasswordIsValid pc mc s pw = Except.error JErr.noKeyToDecrypt ↔
      s.syncInfo.ppk = none ∧ s.syncInfo.masterKeys = []) ∧
    (∀ p, s.syncInfo.ppk = some p →
      masterPasswordIsValid pc mc s pw = Except.ok (pc p pw)) ∧
    (s.syncInfo.ppk = none → s.syncInfo.masterKeys ≠ [] →
      ∃ mk, getDefaultMasterKey s = some mk ∧
        masterPasswordIsValid pc mc s pw = Except.ok (mc mk pw) ∧
        (getActiveMasterKey s = some mk ∨
          (getActiveMasterKey s = none ∧ mk ∈ s.syncInfo.masterKeys ∧
            ∀ k ∈ s.syncInfo.masterKeys, k.created_time ≤ mk.created_time))) := by
  refine ⟨⟨?_, ?_⟩, ?_, ?_⟩
  · intro h
    unfold masterPasswordIsValid at h
    cases hp : s.syncInfo.ppk with
    | some p =>
      rw [hp] at h
      simp at h
    | none =>
      rw [hp] at h
      dsimp only at h
      cases hd : getDefaultMasterKey s with
      | some mk =>
        rw [hd] at h
        simp at h
      | none =>
        refine ⟨rfl, ?_⟩
        unfold getDefaultMasterKey at hd
        cases hA : getActiveMasterKey s with
        | some mka =>
          rw [hA] at hd
          simp at hd
        | none =>
          rw [hA] at hd
          dsimp only at hd
          exact (latestMasterKey_eq_none _).mp hd
  · rintro ⟨hp, hk⟩
    simp [masterPasswordIsValid, getDefaultMasterKey, getActiveMasterKey,
      latestMasterKey, hp, hk]
  · intro p hp
    unfold masterPasswordIsValid
    rw [hp]
  · intro hp hk
    cases hA : getActiveMasterKey s with
    | some mka =>
      have hd : getDefaultMasterKey s = some mka := by
        unfold getDefaultMasterKey
        rw [hA]
      refine ⟨mka, hd, ?_, Or.inl rfl⟩
      unfold masterPasswordIsValid
      rw [hp, hd]
    | none =>
      obtain ⟨mk0, h1, h2, h3⟩ := latestMasterKey_spec s.syncInfo.masterKeys hk
      have hd : getDefaultMasterKey s = some mk0 := by
        unfold getDefaultMasterKey
        rw [hA]
        exact h1
      refine ⟨mk0, hd, ?_, Or.inr ⟨rfl, h2, h3⟩⟩
      unfold masterPasswordIsValid
      rw [hp, hd]

/-- C6 witness: with no PPK and two known keys (no active key) the check
runs against the most recently created key; with no key material at all it
raises `noKeyToDecrypt`. -/
theorem masterPasswordIsValid_cases_witness :
    masterPasswordIsValid pcNever mcNever stateTwoKeys "pw" =
      Except.ok (mcNever mkEnabledB "pw") ∧
    masterPasswordIsValid pcNever mcNever stateEmpty "pw" =
      Except.error JErr.noKeyToDecrypt := by
  constructor
  · obtain ⟨mk, hd, hv, -⟩ :=
      (masterPasswordIsValid_cases pcNever mcNever stateTwoKeys "pw").2.2 rfl (by decide)
    have hd2 : getDefaultMasterKey stateTwoKeys = some mkEnabledB := by decide
    rw [hd2] at hd
    have hmk : mk = mkEnabledB := (Option.some.inj hd).symm
    rw [hmk] at hv
    exact hv
  · exact (masterPasswordIsValid_cases pcNever mcNever stateEmpty "pw").1.mpr ⟨rfl, rfl⟩

/-- C7: `migrateMasterPassword` is idempotent — for every starting state,
running it twice leaves the credential store (master password and per-key
password cache, indeed the whole state) exactly as running it once. -/
theorem migrateMasterPassword_idempotent (s : EState) :
    migrateMasterPassword (migrateMasterPassword s) = migrateMasterPassword s := by
  rcases migrate_cases s with h | h
  · rw [h]
    exact h
  · exact migrate_of_set _ h

/-- C8: the load loop never lets a load failure propagate (the result is
always `ok`), and — for key sets with distinct ids — the keys it attempts
to load are exactly the keys not already loaded in the service that have a
non-empty candidate password, in order, independent of which load attempts
fail: a single bad key never aborts the loop, already-loaded keys are
skipped, and keys with no candidate password are skipped silently. -/
theorem loadMasterKeysFromSettings_best_effort
    (mc : MasterKeyEntity → String → Bool)
    (lo : MasterKeyEntity → String → Bool → Except String Unit)
    (s : EState) (li : List String) :
    (∃ r, loadMasterKeysFromSettings mc lo s li = Except.ok r) ∧
    ((s.syncInfo.masterKeys.map (fun k => k.id)).Nodup →
      ∃ fl, loadMasterKeysFromSettings mc lo s li =
        Except.ok (fl, attemptedKeysSpec mc s li s.syncInfo.masterKeys)) := by
  constructor
  · exact loadKeysLoop_isOk mc lo s s.syncInfo.masterKeys li []
  · intro hnd
    have h := loadKeysLoop_attempts mc lo s li s.syncInfo.masterKeys li [] hnd
      (fun k _ => Iff.rfl)
    simpa [loadMasterKeysFromSettings] using h

/-- C8 witness: key `a` fails to load while key `b` succeeds; the loop
still attempts both, in order, and does not abort. -/
theorem loadMasterKeysFromSettings_best_effort_witness :
    ∃ fl, loadMasterKeysFromSettings mcLoadW loFailA stateLoadW [] =
      Except.ok (fl, ["a", "b"]) := by
  have h := (loadMasterKeysFromSettings_best_effort mcLoadW loFailA stateLoadW []).2
    (by decide)
  have he : attemptedKeysSpec mcLoadW stateLoadW [] stateLoadW.syncInfo.masterKeys =
      ["a", "b"] := by decide
  rw [he] at h
  exact h

/-- C9: when a PPK or at least one master key exists, calling
`updateMasterPassword` with an empty current password fails with the
missing-current-password error and returns the state unchanged — no
re-encryption oracle is consulted (the result holds for every oracle). -/
theorem updateMasterPassword_requires_current_password
    (re : MasterKeyEntity → String → String → Except String MasterKeyEntity)
    (rp : PublicPrivateKeyPair → String → String → Except String PublicPrivateKeyPair)
    (s : EState) (newPassword : String)
    (h : s.syncInfo.ppk ≠ none ∨ s.syncInfo.masterKeys ≠ []) :
    updateMasterPassword re rp s "" newPassword =
      (Except.error UpdateError.missingCurrentPassword, s) := by
  unfold updateMasterPassword
  rw [if_pos h, if_pos rfl]

/-- C9 witness: one master key present, empty current password. -/
theorem updateMasterPassword_requires_current_password_witness :
    updateMasterPassword reFail rpFail stateOneKey "" "npw" =
      (Except.error UpdateError.missingCurrentPassword, stateOneKey) :=
  updateMasterPassword_requires_current_password reFail rpFail stateOneKey "npw"
    (Or.inr (by decide))

/-- C10: with no master key and no PPK present, `updateMasterPassword`
succeeds for every current password (including the empty string, which is
never verified) and its only effect is to set the stored master password
to the new password. -/
theorem updateMasterPassword_no_keys
    (re : MasterKeyEntity → String → String → Except String MasterKeyEntity)
    (rp : PublicPrivateKeyPair → String → String → Except String PublicPrivateKeyPair)
    (s : EState) (c n : String)
    (h1 : s.syncInfo.masterKeys = []) (h2 : s.syncInfo.ppk = none) :
    updateMasterPassword re rp s c n = (Except.ok (), { s with masterPassword := n }) := by
  unfold updateMasterPassword
  rw [if_neg (by simp [h1, h2])]

/-- C10 witness: empty registry, empty current password, the call succeeds
and only the master password changes. -/
theorem updateMasterPassword_no_keys_witness :
    updateMasterPassword reFail rpFail stateNoKeys "" "npw" =
      (Except.ok (), { stateNoKeys with masterPassword := "npw" }) :=
  updateMasterPassword_no_keys reFail rpFail stateNoKeys "" "npw" rfl rfl

end E2EE
